import Mathlib

/-!
Shallow embedding of `src/lib/paperless.py` (charm-paperless-ngx helper
library) and verification of its specification.

Modelling conventions:
  * A raised Python exception is an `Except.error` carrying a `PyErr`.
  * JSON values produced by `json.loads` are the inductive `Json`.
  * The network is a pure function `Net : String → HttpResponse` giving the
    response `urllib.request.urlopen` obtains for each URL; the pair
    `json.loads(data.decode("utf-8"))` is a parameter `Loads` (a `none`
    result models a raised decode error).
  * Side effects of the downloader are threaded explicitly through
    `DLState`: the local filesystem as an association list (newest write
    first, so a write creates or truncates the path) and the ordered log of
    outbound HTTP requests.
  * `NamedTemporaryFile(suffix=extension, delete=False)` is modelled by an
    environment-supplied fresh stem `tmpBase`; the generated file name is
    `tmpBase ++ extension`.
  * Subprocess invocation is a pure function `Runner` from an argv to an
    outcome: either the process ran and exited with a code, or invocation
    itself failed (for example the executable was absent).
-/

/-- Python exception values raised by the embedded functions. -/
inductive PyErr where
  | exception (msg : String)
  | calledProcessError (returncode : Int) (cmd : List String)
  | fileNotFoundError (msg : String)
  | typeError (msg : String)
  | keyError (key : String)
  | attributeError (msg : String)
  | jsonDecodeError
  deriving DecidableEq

/-- JSON values, as produced by `json.loads`. -/
inductive Json where
  | null
  | bool (b : Bool)
  | num (n : Int)
  | str (s : String)
  | arr (elements : List Json)
  | obj (fields : List (String × Json))

/-- Embedding of Python `str.lower()`: lowercase every code point. Python
strings are sequences of code points, modelled here via `String.data`. -/
def pyLower (s : String) : String := String.mk (s.data.map Char.toLower)

/-- Embedding of Python `str.startswith(pre)`: exact prefix match on the
code-point sequence. -/
def pyStartswith (s pre : String) : Bool := pre.data.isPrefixOf s.data

/-- Embedding of Python `str.endswith(suffix)`: exact, case-sensitive
suffix match on the code-point sequence. -/
def pyEndswith (s suffix : String) : Bool := suffix.data.isSuffixOf s.data

/-- Python subscript `value[key]` with a string key: dict lookup (raising
KeyError when the key is missing), TypeError on any non-dict value. Embeds
the accesses `release["tag_name"]`, `release_info["assets"]`,
`asset["name"]` and `asset["browser_download_url"]`. -/
def Json.getField : Json → String → Except PyErr Json
  | .obj fields, key =>
      match fields.lookup key with
      | some v => .ok v
      | none => .error (.keyError key)
  | _, _ => .error (.typeError "value is not subscriptable by a str key")

/-- Python iteration `for x in value`: lists yield their elements, dicts
their keys, strings their characters; other values raise TypeError. -/
def Json.pyIter : Json → Except PyErr (List Json)
  | .arr elements => .ok elements
  | .obj fields => .ok (fields.map (fun kv => Json.str kv.fst))
  | .str s => .ok (s.data.map (fun c => Json.str (String.mk [c])))
  | _ => .error (.typeError "object is not iterable")

/-- Raw response bytes of an HTTP body. -/
abbrev Bytes := List Nat

/-- An HTTP response as seen through `urllib.request.urlopen`. -/
structure HttpResponse where
  status : Nat
  body : Bytes
  deriving DecidableEq

/-- The network environment: the response `urlopen` obtains per URL. -/
abbrev Net := String → HttpResponse

/-- The composite `json.loads(data.decode("utf-8"))`; `none` models a raised
decode error. -/
abbrev Loads := Bytes → Option Json

/-- URL built by `gh_list_releases`:
`f"https://api.github.com/repos/{user}/{repo}/releases"`. -/
def ghReleasesUrl (user repo : String) : String :=
  "https://api.github.com/repos/" ++ user ++ "/" ++ repo ++ "/releases"

/-- URL built by `gh_download_release_asset`:
`f"https://api.github.com/repos/{user}/{repo}/releases/tags/{tag}"`. -/
def ghReleaseTagUrl (user repo tag : String) : String :=
  "https://api.github.com/repos/" ++ user ++ "/" ++ repo ++
    "/releases/tags/" ++ tag

/-- Embedding of `gh_list_releases(user, repo)`: GET the releases endpoint,
require status 200 (else `raise Exception(f"HTTP error {status}")`), parse
the body, and return `[release["tag_name"] for release in releases]`. The
Python return annotation `List[str]` is unenforced, so the embedding
returns the raw field values. -/
def gh_list_releases (net : Net) (loads : Loads) (user repo : String) :
    Except PyErr (List Json) :=
  let response := net (ghReleasesUrl user repo)
  if response.status ≠ 200 then
    .error (.exception ("HTTP error " ++ toString response.status))
  else
    match loads response.body with
    | none => .error .jsonDecodeError
    | some releases =>
        match releases.pyIter with
        | .error e => .error e
        | .ok items => items.mapM (fun release => release.getField "tag_name")

/-- Embedding of the asset-selection loop of `gh_download_release_asset`:

    asset_url = None
    for asset in release_info["assets"]:
        if asset["name"].endswith(extension):
            asset_url = asset["browser_download_url"]
            break

`.ok none` is `asset_url` still being `None` after the loop. A non-string
`asset["name"]` has no `.endswith`, raising AttributeError. -/
def find_asset_url (extension : String) : List Json → Except PyErr (Option Json)
  | [] => .ok none
  | asset :: rest =>
      match asset.getField "name" with
      | .error e => .error e
      | .ok (.str name) =>
          if pyEndswith name extension then
            match asset.getField "browser_download_url" with
            | .error e => .error e
            | .ok u => .ok (some u)
          else
            find_asset_url extension rest
      | .ok _ => .error (.attributeError "endswith")

/-- Observable side effects of a download call: the files on disk
(association list, newest write first) and the outbound requests in order. -/
structure DLState where
  fs : List (String × Bytes)
  requests : List String
  deriving DecidableEq

/-- The destination the downloader writes to. The Python code tests
`destination` for truthiness (`open(destination, mode="wb") if destination
else NamedTemporaryFile(...)`), so both `None` and the empty string take
the generated-temporary-file branch, whose name is `tmpBase ++ extension`. -/
def chosen_path (tmpBase extension : String) : Option String → String
  | some d => if d.data.isEmpty then tmpBase ++ extension else d
  | none => tmpBase ++ extension

/-- Embedding of `gh_download_release_asset(user, repo, tag, extension,
destination)`. Returns the final side-effect state paired with either the
raised exception or the returned path. Steps, exactly as in the source:
GET the release-by-tag endpoint (logged in `requests`), require status 200,
parse the JSON, take `release_info["assets"]`, iterate it looking for the
first asset whose name ends with `extension`, raise an explicit error when
none matches, then GET the selected `browser_download_url` (logged) and
write the full body of that second response — with no status check — to the
chosen destination, returning the path written to. -/
def gh_download_release_asset (net : Net) (loads : Loads) (tmpBase : String)
    (st0 : DLState) (user repo tag extension : String)
    (destination : Option String) : DLState × Except PyErr String :=
  let url := ghReleaseTagUrl user repo tag
  let st1 : DLState := { st0 with requests := st0.requests ++ [url] }
  let response := net url
  if response.status ≠ 200 then
    (st1, .error (.exception ("HTTP error " ++ toString response.status)))
  else
    match loads response.body with
    | none => (st1, .error .jsonDecodeError)
    | some release_info =>
        match release_info.getField "assets" with
        | .error e => (st1, .error e)
        | .ok assetsVal =>
            match assetsVal.pyIter with
            | .error e => (st1, .error e)
            | .ok assets =>
                match find_asset_url extension assets with
                | .error e => (st1, .error e)
                | .ok none =>
                    (st1, .error (.exception
                      ("No asset with extension " ++ extension ++
                        " found for release " ++ tag)))
                | .ok (some (.str asset_url)) =>
                    let st2 : DLState :=
                      { st1 with requests := st1.requests ++ [asset_url] }
                    let response2 := net asset_url
                    let path := chosen_path tmpBase extension destination
                    ({ st2 with fs := (path, response2.body) :: st2.fs },
                      .ok path)
                | .ok (some _) =>
                    (st1, .error (.typeError "urlopen expects a str url"))

/-- Embedding of `machine_is_arm()`, with the `platform.machine()` string
passed in: lowercase it and test the "arm"/"aarch" leading substrings. -/
def machine_is_arm (machine : String) : Bool :=
  let architecture := pyLower machine
  pyStartswith architecture "arm" || pyStartswith architecture "aarch"

/-- The Python values `apt_satisfy` and `is_iterish` can receive: strings,
byte-strings, lists, and a non-iterable scalar (`int`) representing the
`except TypeError` branch of `is_iterish`. -/
inductive PyVal where
  | str (s : String)
  | bytes (b : List Nat)
  | bytearray (b : List Nat)
  | list (elements : List PyVal)
  | int (n : Int)

/-- Whether `iter(obj)` succeeds (no TypeError). -/
def PyVal.iterable : PyVal → Bool
  | .str _ | .bytes _ | .bytearray _ | .list _ => true
  | .int _ => false

/-- `isinstance(obj, (str, bytes, bytearray))`. -/
def PyVal.isStrLike : PyVal → Bool
  | .str _ | .bytes _ | .bytearray _ => true
  | _ => false

/-- Embedding of `is_iterish(obj)`: iterable and strictly list-like (not a
string or byte sequence). -/
def is_iterish (obj : PyVal) : Bool :=
  obj.iterable && !obj.isStrLike

/-- A list element handed to `str.join`: must be a `str`, else TypeError. -/
def PyVal.asStr : PyVal → Except PyErr String
  | .str s => .ok s
  | _ => .error (.typeError "sequence item: expected str instance")

/-- Embedding of `sep.join(elements)` for a list argument. -/
def str_join (sep : String) (elements : List PyVal) : Except PyErr String :=
  match elements.mapM PyVal.asStr with
  | .error e => .error e
  | .ok strs => .ok (String.intercalate sep strs)

/-- Embedding of `apt_satisfy(packages)`, up to the argv it hands to
`check_call`: when `is_iterish(packages)` the elements are joined with
`", "`, otherwise the value is passed through unchanged (a non-str scalar
is rejected by the subprocess layer; modelled as TypeError). The argv is
`["apt", "satisfy", "-y", spec]`. -/
def apt_satisfy (packages : PyVal) : Except PyErr (List String) :=
  let spec : Except PyErr String :=
    if is_iterish packages then
      match packages with
      | .list elements => str_join ", " elements
      | _ => .error (.typeError "can only join an iterable")
    else
      match packages with
      | .str s => .ok s
      | _ => .error (.typeError "expected str argument")
  match spec with
  | .error e => .error e
  | .ok s => .ok ["apt", "satisfy", "-y", s]

/-- Outcome of attempting to run an external command. -/
inductive ProcOutcome where
  | exit (returncode : Int)
  | execError (msg : String)
  deriving DecidableEq

/-- The subprocess environment: what invoking each argv does. -/
abbrev Runner := List String → ProcOutcome

/-- Embedding of `subprocess.check_call(cmd)`: a zero exit code returns
normally, a non-zero exit code raises CalledProcessError, and a failure to
invoke the command at all (for example a missing executable) raises a
different exception, here FileNotFoundError. -/
def check_call (run : Runner) (cmd : List String) : Except PyErr Unit :=
  match run cmd with
  | .exit code =>
      if code = 0 then .ok () else .error (.calledProcessError code cmd)
  | .execError msg => .error (.fileNotFoundError msg)

/-- Embedding of `linux_user_exists(user)`: `check_call(["getent", "passwd",
user])`, catching only CalledProcessError (returning False); any other
exception propagates. -/
def linux_user_exists (run : Runner) (user : String) : Except PyErr Bool :=
  match check_call run ["getent", "passwd", user] with
  | .ok _ => .ok true
  | .error (.calledProcessError _ _) => .ok false
  | .error e => .error e

/-! ## Helper lemmas -/

/-- Accumulator form of `mapM` extraction over wrapped strings. -/
theorem mapM_loop_asStr (l : List String) :
    ∀ acc : List String,
      List.mapM.loop PyVal.asStr (l.map PyVal.str) acc =
        Except.ok (acc.reverse ++ l) := by
  induction l with
  | nil => intro acc; simp [List.mapM.loop]; rfl
  | cons a as ih =>
      intro acc
      simp [List.mapM.loop, PyVal.asStr, Bind.bind, Except.bind, ih]

/-- Wrapping strings as Python values and extracting them back is identity. -/
theorem mapM_asStr_map_str (l : List String) :
    (l.map PyVal.str).mapM PyVal.asStr = Except.ok l := by
  have h := mapM_loop_asStr l []
  simpa [List.mapM] using h

/-- `str_join` on a list of strings is `String.intercalate`. -/
theorem str_join_map_str (sep : String) (l : List String) :
    str_join sep (l.map PyVal.str) = .ok (String.intercalate sep l) := by
  have h := mapM_loop_asStr l []
  simp [str_join, List.mapM, h]


/-- A generated temporary name `stem ++ suffix` ends with its suffix. -/
theorem pyEndswith_append (stem suffix : String) :
    pyEndswith (stem ++ suffix) suffix = true := by
  simp [pyEndswith, String.data_append, List.isSuffixOf]

/-- Appending to a string with a nonempty prefix part is nonempty. -/
theorem append_ne_empty_of_left (a b : String) (h : a.data.isEmpty = false) :
    (a ++ b) ≠ "" := by
  intro hc
  have h2 : (a ++ b).data = [] := by rw [hc]
  rw [String.data_append] at h2
  simp [List.append_eq_nil] at h2
  simp [h2.1] at h

/-- `Json.getField` never raises the bare `Exception` constructor: its
failures are KeyError or TypeError. -/
theorem getField_no_exception (v : Json) (key m : String) :
    v.getField key ≠ .error (.exception m) := by
  cases v with
  | null => simp [Json.getField]
  | bool b => simp [Json.getField]
  | num n => simp [Json.getField]
  | str s => simp [Json.getField]
  | arr elements => simp [Json.getField]
  | obj fields =>
      simp only [Json.getField]
      cases fields.lookup key <;> simp

/-- The asset loop never raises the bare `Exception` constructor either:
only the enclosing function does, after the loop ends without a match. -/
theorem find_asset_url_no_exception (extension : String) :
    ∀ (assets : List Json) (m : String),
      find_asset_url extension assets ≠ .error (.exception m) := by
  intro assets
  induction assets with
  | nil => intro m; simp [find_asset_url]
  | cons a rest ih =>
      intro m
      unfold find_asset_url
      cases hn : a.getField "name" with
      | error e =>
          intro h
          injection h with h2
          subst h2
          exact getField_no_exception a "name" m hn
      | ok nv =>
          cases nv with
          | str name =>
              by_cases hend : pyEndswith name extension = true
              · simp only [hend, if_true]
                cases hu : a.getField "browser_download_url" with
                | error e2 =>
                    intro h
                    injection h with h2
                    subst h2
                    exact getField_no_exception a "browser_download_url" m hu
                | ok u => simp
              · simp only [Bool.not_eq_true] at hend
                simp only [hend, Bool.false_eq_true, if_false]
                exact ih m
          | null => simp
          | bool b => simp
          | num n => simp
          | arr elements => simp
          | obj fields => simp

/-- One step of the asset loop when the head asset's name matches. -/
theorem find_asset_url_cons_match (extension : String) (asset : Json)
    (rest : List Json) (name : String)
    (hn : asset.getField "name" = .ok (.str name))
    (hend : pyEndswith name extension = true) :
    find_asset_url extension (asset :: rest) =
      match asset.getField "browser_download_url" with
      | .error e => .error e
      | .ok u => .ok (some u) := by
  conv_lhs => rw [find_asset_url]
  rw [hn]
  simp [hend]

/-- One step of the asset loop when the head asset's name does not match. -/
theorem find_asset_url_cons_nomatch (extension : String) (asset : Json)
    (rest : List Json) (name : String)
    (hn : asset.getField "name" = .ok (.str name))
    (hend : pyEndswith name extension = false) :
    find_asset_url extension (asset :: rest) =
      find_asset_url extension rest := by
  conv_lhs => rw [find_asset_url]
  rw [hn]
  simp [hend]

/-- The asset loop returns `none` exactly when no asset name matches,
provided every asset has a string-valued name. -/
theorem find_asset_url_none_iff (extension : String) :
    ∀ assets : List Json,
      (∀ a ∈ assets, ∃ s, a.getField "name" = .ok (.str s)) →
      (find_asset_url extension assets = .ok none ↔
        ∀ a ∈ assets, ∀ s, a.getField "name" = .ok (.str s) →
          pyEndswith s extension = false) := by
  intro assets
  induction assets with
  | nil => intro _; simp [find_asset_url]
  | cons a rest ih =>
      intro hnames
      obtain ⟨s, hs⟩ := hnames a (List.mem_cons_self a rest)
      have hrest := ih (fun b hb => hnames b (List.mem_cons_of_mem a hb))
      constructor
      · intro h
        by_cases hend : pyEndswith s extension = true
        · rw [find_asset_url_cons_match extension a rest s hs hend] at h
          cases hu : a.getField "browser_download_url" with
          | error e => rw [hu] at h; cases h
          | ok u => rw [hu] at h; cases h
        · rw [Bool.not_eq_true] at hend
          rw [find_asset_url_cons_nomatch extension a rest s hs hend] at h
          intro b hb t ht
          rcases List.mem_cons.mp hb with rfl | hb2
          · rw [hs] at ht
            injection ht with h2
            injection h2 with h3
            subst h3
            exact hend
          · exact hrest.mp h b hb2 t ht
      · intro hno
        have hend : pyEndswith s extension = false :=
          hno a (List.mem_cons_self a rest) s hs
        rw [find_asset_url_cons_nomatch extension a rest s hs hend]
        exact hrest.mpr (fun b hb t ht => hno b (List.mem_cons_of_mem a hb) t ht)

/-- The asset loop selects the first matching asset: whatever follows the
first match is never examined. -/
theorem find_asset_url_first_match (extension : String) (a : Json)
    (aname : String) (u : Json)
    (haname : a.getField "name" = .ok (.str aname))
    (hmatch : pyEndswith aname extension = true)
    (haurl : a.getField "browser_download_url" = .ok u) :
    ∀ (pre : List Json) (post : List Json),
      (∀ b ∈ pre, ∃ s, b.getField "name" = .ok (.str s) ∧
        pyEndswith s extension = false) →
      find_asset_url extension (pre ++ a :: post) = .ok (some u) := by
  intro pre
  induction pre with
  | nil =>
      intro post _
      simp only [List.nil_append]
      rw [find_asset_url_cons_match extension a post aname haname hmatch, haurl]
  | cons b pre2 ih =>
      intro post hpre
      obtain ⟨s, hbs, hbend⟩ := hpre b (List.mem_cons_self b pre2)
      simp only [List.cons_append]
      rw [find_asset_url_cons_nomatch extension b (pre2 ++ a :: post) s hbs hbend]
      exact ih post (fun c hc => hpre c (List.mem_cons_of_mem b hc))

/-- On the success path (status 200, JSON body with an asset array, loop
returning a string URL) the downloader performs the metadata request then
the asset request, writes the second body to the chosen path, and returns
that path. -/
theorem gh_download_success (net : Net) (loads : Loads) (tmpBase : String)
    (st0 : DLState) (user repo tag extension : String)
    (destination : Option String) (release_info : Json) (assets : List Json)
    (asset_url : String)
    (h200 : (net (ghReleaseTagUrl user repo tag)).status = 200)
    (hbody : loads (net (ghReleaseTagUrl user repo tag)).body =
      some release_info)
    (hassets : release_info.getField "assets" = .ok (.arr assets))
    (hfind : find_asset_url extension assets = .ok (some (.str asset_url))) :
    gh_download_release_asset net loads tmpBase st0 user repo tag extension
        destination =
      ({ fs := (chosen_path tmpBase extension destination,
            (net asset_url).body) :: st0.fs,
         requests := st0.requests ++
            [ghReleaseTagUrl user repo tag, asset_url] },
        .ok (chosen_path tmpBase extension destination)) := by
  unfold gh_download_release_asset
  simp [h200, hbody, hassets, Json.pyIter, hfind]

/-- On a non-200 metadata response the downloader stops with the HTTP
error, having only logged the metadata request and written nothing. -/
theorem gh_download_http_error (net : Net) (loads : Loads) (tmpBase : String)
    (st0 : DLState) (user repo tag extension : String)
    (destination : Option String)
    (h : (net (ghReleaseTagUrl user repo tag)).status ≠ 200) :
    gh_download_release_asset net loads tmpBase st0 user repo tag extension
        destination =
      ({ fs := st0.fs,
         requests := st0.requests ++ [ghReleaseTagUrl user repo tag] },
        .error (.exception ("HTTP error " ++
          toString (net (ghReleaseTagUrl user repo tag)).status))) := by
  unfold gh_download_release_asset
  simp [h]

/-- When the asset loop finds no match the downloader raises the explicit
asset-not-found exception, having only logged the metadata request and
written nothing. -/
theorem gh_download_not_found (net : Net) (loads : Loads) (tmpBase : String)
    (st0 : DLState) (user repo tag extension : String)
    (destination : Option String) (release_info : Json) (assets : List Json)
    (h200 : (net (ghReleaseTagUrl user repo tag)).status = 200)
    (hbody : loads (net (ghReleaseTagUrl user repo tag)).body =
      some release_info)
    (hassets : release_info.getField "assets" = .ok (.arr assets))
    (hfind : find_asset_url extension assets = .ok none) :
    gh_download_release_asset net loads tmpBase st0 user repo tag extension
        destination =
      ({ fs := st0.fs,
         requests := st0.requests ++ [ghReleaseTagUrl user repo tag] },
        .error (.exception ("No asset with extension " ++ extension ++
          " found for release " ++ tag))) := by
  unfold gh_download_release_asset
  simp [h200, hbody, hassets, Json.pyIter, hfind]

/-- Loop form of `mapM` over a list pointwise related to an output list. -/
theorem mapM_loop_ok_of_forall2 {α β : Type} (f : α → Except PyErr β)
    {l : List α} {b : List β}
    (h : List.Forall₂ (fun x y => f x = Except.ok y) l b) :
    ∀ acc : List β, List.mapM.loop f l acc = Except.ok (acc.reverse ++ b) := by
  induction h with
  | nil => intro acc; simp [List.mapM.loop]; rfl
  | cons h1 h2 ih =>
      intro acc
      simp only [List.mapM.loop, h1, Bind.bind, Except.bind]
      simpa using ih (_ :: acc)

/-- `mapM` of a field access over a list pointwise related to its output. -/
theorem mapM_getField_forall2 (key : String) (releases tags : List Json)
    (h : List.Forall₂ (fun release t => release.getField key = Except.ok t)
      releases tags) :
    releases.mapM (fun release => release.getField key) = Except.ok tags := by
  have h2 := mapM_loop_ok_of_forall2
    (fun release => Json.getField release key) h []
  simpa [List.mapM] using h2

/-- When the asset loop itself raises, the downloader propagates that error
with only the metadata request logged and nothing written. -/
theorem gh_download_find_error (net : Net) (loads : Loads) (tmpBase : String)
    (st0 : DLState) (user repo tag extension : String)
    (destination : Option String) (release_info : Json) (assets : List Json)
    (e : PyErr)
    (h200 : (net (ghReleaseTagUrl user repo tag)).status = 200)
    (hbody : loads (net (ghReleaseTagUrl user repo tag)).body =
      some release_info)
    (hassets : release_info.getField "assets" = .ok (.arr assets))
    (hfind : find_asset_url extension assets = .error e) :
    gh_download_release_asset net loads tmpBase st0 user repo tag extension
        destination =
      ({ fs := st0.fs,
         requests := st0.requests ++ [ghReleaseTagUrl user repo tag] },
        .error e) := by
  unfold gh_download_release_asset
  simp [h200, hbody, hassets, Json.pyIter, hfind]

/-- When the selected download address is not a string, `urlopen` rejects
it; only the metadata request is logged and nothing is written. -/
theorem gh_download_url_not_str (net : Net) (loads : Loads) (tmpBase : String)
    (st0 : DLState) (user repo tag extension : String)
    (destination : Option String) (release_info : Json) (assets : List Json)
    (u : Json)
    (h200 : (net (ghReleaseTagUrl user repo tag)).status = 200)
    (hbody : loads (net (ghReleaseTagUrl user repo tag)).body =
      some release_info)
    (hassets : release_info.getField "assets" = .ok (.arr assets))
    (hfind : find_asset_url extension assets = .ok (some u))
    (hnotstr : ∀ s, u ≠ Json.str s) :
    gh_download_release_asset net loads tmpBase st0 user repo tag extension
        destination =
      ({ fs := st0.fs,
         requests := st0.requests ++ [ghReleaseTagUrl user repo tag] },
        .error (.typeError "urlopen expects a str url")) := by
  unfold gh_download_release_asset
  simp only [h200, hbody, hassets, Json.pyIter, hfind]
  cases u with
  | str s => exact absurd rfl (hnotstr s)
  | null => simp
  | bool b => simp
  | num n => simp
  | arr elements => simp
  | obj fields => simp

/-! ## Claim theorems -/

/-- C7: `apt_satisfy` invokes the package manager with the same effective
specification argument for a single string as for the one-element list of
that string, and for any list of strings it joins the elements with ", "
preserving input order (so `["a", "b"]` yields the specification "a, b"). -/
theorem apt_satisfy_string_list_agree (s : String) (l : List String) :
    apt_satisfy (.str s) = apt_satisfy (.list [.str s]) ∧
    apt_satisfy (.list (l.map PyVal.str)) =
      .ok ["apt", "satisfy", "-y", String.intercalate ", " l] := by
  constructor
  · rfl
  · simp [apt_satisfy, is_iterish, PyVal.iterable, PyVal.isStrLike,
      str_join_map_str]

/-- C8: `machine_is_arm` returns true exactly when the lowercased reported
architecture string starts with "arm" or with "aarch"; being a total
Bool-valued function of the architecture string, it always returns a
boolean and has no side effects or failure modes in the embedding. -/
theorem machine_is_arm_iff (machine : String) :
    machine_is_arm machine = true ↔
      (pyStartswith (pyLower machine) "arm" = true ∨
        pyStartswith (pyLower machine) "aarch" = true) := by
  simp [machine_is_arm]

/-- C10: `linux_user_exists` returns False exactly when the getent command
runs and exits non-zero (CalledProcessError); a failure to invoke the
command at all (for example the executable being absent) is not converted
to False but propagates as an error. -/
theorem linux_user_exists_false_iff (run : Runner) (user : String) :
    (linux_user_exists run user = .ok false ↔
      ∃ code, code ≠ 0 ∧ run ["getent", "passwd", user] = .exit code) ∧
    (∀ msg, run ["getent", "passwd", user] = .execError msg →
      linux_user_exists run user = .error (.fileNotFoundError msg)) := by
  constructor
  · constructor
    · intro h
      unfold linux_user_exists check_call at h
      cases hrun : run ["getent", "passwd", user] with
      | exit code =>
          rw [hrun] at h
          by_cases hc : code = 0
          · simp [hc] at h
          · exact ⟨code, hc, rfl⟩
      | execError msg => rw [hrun] at h; simp at h
    · rintro ⟨code, hc, hrun⟩
      unfold linux_user_exists check_call
      rw [hrun]
      simp [hc]
  · intro msg hrun
    unfold linux_user_exists check_call
    rw [hrun]

/-- Witness for C10: a non-zero exit yields False, a missing executable
propagates as an error. -/
theorem linux_user_exists_false_iff_witness :
    linux_user_exists (fun _ => .exit 2) "alice" = .ok false ∧
    linux_user_exists (fun _ => .execError "getent missing") "alice" =
      .error (.fileNotFoundError "getent missing") :=
  ⟨(linux_user_exists_false_iff (fun _ => .exit 2) "alice").1.mpr
      ⟨2, by decide, rfl⟩,
    (linux_user_exists_false_iff
      (fun _ => .execError "getent missing") "alice").2 "getent missing" rfl⟩

/-- C5: on a 200 response whose body parses as a JSON array of release
objects, `gh_list_releases` returns the `tag_name` field of each element,
preserving the server-provided order (the pointwise relation is positional)
and length. -/
theorem gh_list_releases_tag_names (net : Net) (loads : Loads)
    (user repo : String) (releases tags : List Json)
    (h200 : (net (ghReleasesUrl user repo)).status = 200)
    (hbody : loads (net (ghReleasesUrl user repo)).body = some (.arr releases))
    (htags : List.Forall₂
      (fun release t => release.getField "tag_name" = Except.ok t)
      releases tags) :
    gh_list_releases net loads user repo = .ok tags ∧
      tags.length = releases.length := by
  constructor
  · unfold gh_list_releases
    simp [h200, hbody, Json.pyIter]
    simpa using mapM_loop_ok_of_forall2
      (fun release => Json.getField release "tag_name") htags []
  · exact (List.Forall₂.length_eq htags).symm

/-- Witness for C5: the body `[{"tag_name": "v1"}, {"tag_name": "v2"}]`
yields `["v1", "v2"]` in order. -/
theorem gh_list_releases_tag_names_witness :
    gh_list_releases (fun _ => ⟨200, [0]⟩)
        (fun _ => some (.arr [.obj [("tag_name", .str "v1")],
          .obj [("tag_name", .str "v2")]]))
        "paperless-ngx" "paperless-ngx" =
      .ok [.str "v1", .str "v2"] ∧
      ([Json.str "v1", Json.str "v2"]).length =
        ([Json.obj [("tag_name", Json.str "v1")],
          Json.obj [("tag_name", Json.str "v2")]]).length :=
  gh_list_releases_tag_names (fun _ => ⟨200, [0]⟩)
    (fun _ => some (.arr [.obj [("tag_name", .str "v1")],
      .obj [("tag_name", .str "v2")]]))
    "paperless-ngx" "paperless-ngx"
    [.obj [("tag_name", .str "v1")], .obj [("tag_name", .str "v2")]]
    [.str "v1", .str "v2"] rfl rfl
    (List.Forall₂.cons rfl (List.Forall₂.cons rfl List.Forall₂.nil))

/-- C6: any non-200 status on the releases-listing endpoint or on the
release-lookup endpoint raises an explicit error carrying the numeric
status code; no value is returned and no file is written. -/
theorem non200_raises_http_error (net : Net) (loads : Loads)
    (tmpBase : String) (st0 : DLState)
    (user repo tag extension : String) (destination : Option String)
    (h1 : (net (ghReleasesUrl user repo)).status ≠ 200)
    (h2 : (net (ghReleaseTagUrl user repo tag)).status ≠ 200) :
    gh_list_releases net loads user repo =
      .error (.exception ("HTTP error " ++
        toString (net (ghReleasesUrl user repo)).status)) ∧
    (gh_download_release_asset net loads tmpBase st0 user repo tag extension
        destination).2 =
      .error (.exception ("HTTP error " ++
        toString (net (ghReleaseTagUrl user repo tag)).status)) ∧
    (gh_download_release_asset net loads tmpBase st0 user repo tag extension
        destination).1.fs = st0.fs := by
  refine ⟨?_, ?_, ?_⟩
  · unfold gh_list_releases
    simp [h1]
  · rw [gh_download_http_error net loads tmpBase st0 user repo tag extension
      destination h2]
  · rw [gh_download_http_error net loads tmpBase st0 user repo tag extension
      destination h2]

/-- Witness for C6: a 404 response raises "HTTP error 404" on both
endpoints and nothing is written. -/
theorem non200_raises_http_error_witness :
    gh_list_releases (fun _ => ⟨404, []⟩) (fun _ => none) "u" "r" =
      .error (.exception "HTTP error 404") ∧
    (gh_download_release_asset (fun _ => ⟨404, []⟩) (fun _ => none) "/tmp/t"
        ⟨[], []⟩ "u" "r" "v1" ".tar.xz" none).2 =
      .error (.exception "HTTP error 404") ∧
    (gh_download_release_asset (fun _ => ⟨404, []⟩) (fun _ => none) "/tmp/t"
        ⟨[], []⟩ "u" "r" "v1" ".tar.xz" none).1.fs = [] :=
  non200_raises_http_error (fun _ => ⟨404, []⟩) (fun _ => none) "/tmp/t"
    ⟨[], []⟩ "u" "r" "v1" ".tar.xz" none (by decide) (by decide)

/-- C2: the downloader raises the explicit asset-not-found error, which
names both the requested extension and the tag, exactly when no asset in
the release's asset list has a name ending with the extension (each asset
carrying a string-valued name); and in that case the asset download request
is never issued and no file is written. -/
theorem asset_not_found_iff (net : Net) (loads : Loads) (tmpBase : String)
    (st0 : DLState) (user repo tag extension : String)
    (destination : Option String) (release_info : Json) (assets : List Json)
    (h200 : (net (ghReleaseTagUrl user repo tag)).status = 200)
    (hbody : loads (net (ghReleaseTagUrl user repo tag)).body =
      some release_info)
    (hassets : release_info.getField "assets" = .ok (.arr assets))
    (hnames : ∀ a ∈ assets, ∃ s, a.getField "name" = .ok (.str s)) :
    ((gh_download_release_asset net loads tmpBase st0 user repo tag extension
        destination).2 =
      .error (.exception ("No asset with extension " ++ extension ++
        " found for release " ++ tag)) ↔
      ∀ a ∈ assets, ∀ s, a.getField "name" = .ok (.str s) →
        pyEndswith s extension = false) ∧
    ((∀ a ∈ assets, ∀ s, a.getField "name" = .ok (.str s) →
        pyEndswith s extension = false) →
      (gh_download_release_asset net loads tmpBase st0 user repo tag extension
          destination).1.fs = st0.fs ∧
      (gh_download_release_asset net loads tmpBase st0 user repo tag extension
          destination).1.requests =
        st0.requests ++ [ghReleaseTagUrl user repo tag]) := by
  have hiff := find_asset_url_none_iff extension assets hnames
  constructor
  · constructor
    · intro h
      cases hf : find_asset_url extension assets with
      | error e =>
          rw [gh_download_find_error net loads tmpBase st0 user repo tag
            extension destination release_info assets e h200 hbody hassets hf]
            at h
          injection h with h2
          subst h2
          exact absurd hf (find_asset_url_no_exception extension assets _)
      | ok o =>
          cases o with
          | none => exact hiff.mp hf
          | some u =>
              by_cases hstr : ∃ s, u = Json.str s
              · obtain ⟨s, rfl⟩ := hstr
                rw [gh_download_success net loads tmpBase st0 user repo tag
                  extension destination release_info assets s h200 hbody
                  hassets hf] at h
                cases h
              · rw [gh_download_url_not_str net loads tmpBase st0 user repo
                  tag extension destination release_info assets u h200 hbody
                  hassets hf (fun s hh => hstr ⟨s, hh⟩)] at h
                injection h with h2
                cases h2
    · intro hno
      rw [gh_download_not_found net loads tmpBase st0 user repo tag extension
        destination release_info assets h200 hbody hassets (hiff.mpr hno)]
  · intro hno
    rw [gh_download_not_found net loads tmpBase st0 user repo tag extension
      destination release_info assets h200 hbody hassets (hiff.mpr hno)]
    exact ⟨rfl, rfl⟩

/-- Witness for C2: a release whose only assets are `a.zip` and `b.whl`
has no `.tar.xz` asset, so the call fails with the naming error and
performs no second request and no write. -/
theorem asset_not_found_iff_witness :
    ((gh_download_release_asset (fun _ => ⟨200, [7]⟩)
        (fun _ => some (.obj [("assets",
          .arr [.obj [("name", .str "a.zip")],
            .obj [("name", .str "b.whl")]])]))
        "/tmp/t" ⟨[], ["boot"]⟩ "u" "r" "v1" ".tar.xz" none).2 =
      .error (.exception ("No asset with extension " ++ ".tar.xz" ++
        " found for release " ++ "v1")) ↔
      ∀ a ∈ [Json.obj [("name", Json.str "a.zip")],
        Json.obj [("name", Json.str "b.whl")]],
        ∀ s, a.getField "name" = .ok (.str s) →
          pyEndswith s ".tar.xz" = false) ∧
    ((∀ a ∈ [Json.obj [("name", Json.str "a.zip")],
        Json.obj [("name", Json.str "b.whl")]],
        ∀ s, a.getField "name" = .ok (.str s) →
          pyEndswith s ".tar.xz" = false) →
      (gh_download_release_asset (fun _ => ⟨200, [7]⟩)
        (fun _ => some (.obj [("assets",
          .arr [.obj [("name", .str "a.zip")],
            .obj [("name", .str "b.whl")]])]))
        "/tmp/t" ⟨[], ["boot"]⟩ "u" "r" "v1" ".tar.xz" none).1.fs = [] ∧
      (gh_download_release_asset (fun _ => ⟨200, [7]⟩)
        (fun _ => some (.obj [("assets",
          .arr [.obj [("name", .str "a.zip")],
            .obj [("name", .str "b.whl")]])]))
        "/tmp/t" ⟨[], ["boot"]⟩ "u" "r" "v1" ".tar.xz" none).1.requests =
        ["boot"] ++ [ghReleaseTagUrl "u" "r" "v1"]) :=
  asset_not_found_iff (fun _ => ⟨200, [7]⟩)
    (fun _ => some (.obj [("assets",
      .arr [.obj [("name", .str "a.zip")],
        .obj [("name", .str "b.whl")]])]))
    "/tmp/t" ⟨[], ["boot"]⟩ "u" "r" "v1" ".tar.xz" none
    (.obj [("assets", .arr [.obj [("name", .str "a.zip")],
      .obj [("name", .str "b.whl")]])])
    [.obj [("name", .str "a.zip")], .obj [("name", .str "b.whl")]]
    rfl rfl rfl
    (by
      intro a ha
      rcases List.mem_cons.mp ha with rfl | ha2
      · exact ⟨"a.zip", rfl⟩
      · rcases List.mem_cons.mp ha2 with rfl | ha3
        · exact ⟨"b.whl", rfl⟩
        · cases ha3)

/-- C1: when the release's asset list splits as `pre ++ a :: post` with no
asset in `pre` matching and `a` matching, the loop selects exactly `a`
(yielding its `browser_download_url`), and the downloader's second request
goes to that URL; `post` is arbitrary and absent from the conclusion, so
assets after the first match are never considered. -/
theorem first_match_downloaded (net : Net) (loads : Loads) (tmpBase : String)
    (st0 : DLState) (user repo tag extension : String)
    (destination : Option String) (release_info : Json)
    (pre post : List Json) (a : Json) (aname asset_url : String)
    (h200 : (net (ghReleaseTagUrl user repo tag)).status = 200)
    (hbody : loads (net (ghReleaseTagUrl user repo tag)).body =
      some release_info)
    (hassets : release_info.getField "assets" = .ok (.arr (pre ++ a :: post)))
    (hpre : ∀ b ∈ pre, ∃ s, b.getField "name" = .ok (.str s) ∧
      pyEndswith s extension = false)
    (haname : a.getField "name" = .ok (.str aname))
    (hmatch : pyEndswith aname extension = true)
    (haurl : a.getField "browser_download_url" = .ok (.str asset_url)) :
    find_asset_url extension (pre ++ a :: post) = .ok (some (.str asset_url)) ∧
    (gh_download_release_asset net loads tmpBase st0 user repo tag extension
        destination).1.requests =
      st0.requests ++ [ghReleaseTagUrl user repo tag, asset_url] := by
  have hfind := find_asset_url_first_match extension a aname (.str asset_url)
    haname hmatch haurl pre post hpre
  refine ⟨hfind, ?_⟩
  rw [gh_download_success net loads tmpBase st0 user repo tag extension
    destination release_info (pre ++ a :: post) asset_url h200 hbody hassets
    hfind]

/-- C3: no status check is performed on the asset download request: under
the success hypotheses about the first request and the asset list, whatever
body the asset response carries is written to the destination file and the
path is returned, including when that response's status is not 200. -/
theorem download_body_written_unconditionally (net : Net) (loads : Loads)
    (tmpBase : String) (st0 : DLState) (user repo tag extension : String)
    (destination : Option String) (release_info : Json) (assets : List Json)
    (asset_url : String)
    (h200 : (net (ghReleaseTagUrl user repo tag)).status = 200)
    (hbody : loads (net (ghReleaseTagUrl user repo tag)).body =
      some release_info)
    (hassets : release_info.getField "assets" = .ok (.arr assets))
    (hfind : find_asset_url extension assets = .ok (some (.str asset_url)))
    (hbad : (net asset_url).status ≠ 200) :
    (gh_download_release_asset net loads tmpBase st0 user repo tag extension
        destination).2 = .ok (chosen_path tmpBase extension destination) ∧
    (gh_download_release_asset net loads tmpBase st0 user repo tag extension
        destination).1.fs =
      (chosen_path tmpBase extension destination, (net asset_url).body) ::
        st0.fs := by
  rw [gh_download_success net loads tmpBase st0 user repo tag extension
    destination release_info assets asset_url h200 hbody hassets hfind]
  exact ⟨rfl, rfl⟩

/-- C4: with an explicit nonempty destination path the fetched body is
written exactly to that path (as the newest filesystem entry, creating or
truncating it) and that same path is returned; with no destination the body
goes to the generated file `tmpBase ++ extension`, whose name ends with the
requested extension, the file stays on disk, and that generated path is
returned. -/
theorem download_destination_semantics (net : Net) (loads : Loads)
    (tmpBase : String) (st0 : DLState) (user repo tag extension : String)
    (destination : Option String) (d : String) (release_info : Json)
    (assets : List Json) (asset_url : String)
    (h200 : (net (ghReleaseTagUrl user repo tag)).status = 200)
    (hbody : loads (net (ghReleaseTagUrl user repo tag)).body =
      some release_info)
    (hassets : release_info.getField "assets" = .ok (.arr assets))
    (hfind : find_asset_url extension assets = .ok (some (.str asset_url))) :
    (destination = some d → d.data.isEmpty = false →
      (gh_download_release_asset net loads tmpBase st0 user repo tag extension
          destination).2 = .ok d ∧
      (gh_download_release_asset net loads tmpBase st0 user repo tag extension
          destination).1.fs = (d, (net asset_url).body) :: st0.fs) ∧
    (destination = none →
      (gh_download_release_asset net loads tmpBase st0 user repo tag extension
          destination).2 = .ok (tmpBase ++ extension) ∧
      (gh_download_release_asset net loads tmpBase st0 user repo tag extension
          destination).1.fs =
        (tmpBase ++ extension, (net asset_url).body) :: st0.fs ∧
      pyEndswith (tmpBase ++ extension) extension = true) := by
  rw [gh_download_success net loads tmpBase st0 user repo tag extension
    destination release_info assets asset_url h200 hbody hassets hfind]
  constructor
  · rintro rfl hd
    constructor
    · show Except.ok (chosen_path tmpBase extension (some d)) = .ok d
      simp [chosen_path, hd]
    · show (chosen_path tmpBase extension (some d),
          (net asset_url).body) :: st0.fs = (d, (net asset_url).body) :: st0.fs
      simp [chosen_path, hd]
  · rintro rfl
    refine ⟨?_, ?_, pyEndswith_append tmpBase extension⟩
    · show Except.ok (chosen_path tmpBase extension none) =
        .ok (tmpBase ++ extension)
      simp [chosen_path]
    · show (chosen_path tmpBase extension none,
          (net asset_url).body) :: st0.fs =
        (tmpBase ++ extension, (net asset_url).body) :: st0.fs
      simp [chosen_path]

/-- C9: a destination equal to the empty string is falsy, so the call takes
the generated-temporary-file branch: the bytes go to the fresh name
`tmpBase ++ extension` and never to the path `""`, and the generated path
is returned. -/
theorem empty_destination_uses_tempfile (net : Net) (loads : Loads)
    (tmpBase : String) (st0 : DLState) (user repo tag extension : String)
    (release_info : Json) (assets : List Json) (asset_url : String)
    (h200 : (net (ghReleaseTagUrl user repo tag)).status = 200)
    (hbody : loads (net (ghReleaseTagUrl user repo tag)).body =
      some release_info)
    (hassets : release_info.getField "assets" = .ok (.arr assets))
    (hfind : find_asset_url extension assets = .ok (some (.str asset_url)))
    (htmp : tmpBase.data.isEmpty = false) :
    (gh_download_release_asset net loads tmpBase st0 user repo tag extension
        (some "")).2 = .ok (tmpBase ++ extension) ∧
    (gh_download_release_asset net loads tmpBase st0 user repo tag extension
        (some "")).1.fs =
      (tmpBase ++ extension, (net asset_url).body) :: st0.fs ∧
    (gh_download_release_asset net loads tmpBase st0 user repo tag extension
        (some "")).1.fs.lookup "" = st0.fs.lookup "" := by
  rw [gh_download_success net loads tmpBase st0 user repo tag extension
    (some "") release_info assets asset_url h200 hbody hassets hfind]
  have hpath : chosen_path tmpBase extension (some "") =
      tmpBase ++ extension := by
    simp [chosen_path]
  have hne : "" ≠ tmpBase ++ extension := fun hc =>
    append_ne_empty_of_left tmpBase extension htmp hc.symm
  refine ⟨by rw [hpath], by rw [hpath], ?_⟩
  show ((chosen_path tmpBase extension (some ""),
      (net asset_url).body) :: st0.fs).lookup "" = st0.fs.lookup ""
  rw [hpath]
  simp [List.lookup, beq_eq_false_iff_ne.mpr hne]

/-- Witness for C1: with assets `x.zip`, `y.tar.xz` (address "U") and a
later `z.tar.xz` (address "W"), the loop picks `y.tar.xz` and the second
request goes to "U", never to "W". -/
theorem first_match_downloaded_witness :
    find_asset_url ".tar.xz"
        ([Json.obj [("name", Json.str "x.zip")]] ++
          Json.obj [("name", Json.str "y.tar.xz"),
            ("browser_download_url", Json.str "U")] ::
          [Json.obj [("name", Json.str "z.tar.xz"),
            ("browser_download_url", Json.str "W")]]) =
      .ok (some (.str "U")) ∧
    (gh_download_release_asset
        (fun u => if u = "U" then ⟨500, [9, 9]⟩ else ⟨200, [1]⟩)
        (fun b => if b = [1] then
          some (.obj [("assets", .arr
            [.obj [("name", .str "x.zip")],
             .obj [("name", .str "y.tar.xz"),
               ("browser_download_url", .str "U")],
             .obj [("name", .str "z.tar.xz"),
               ("browser_download_url", .str "W")]])])
          else none)
        "/tmp/t0" ⟨[], []⟩ "u" "r" "v1" ".tar.xz" none).1.requests =
      [] ++ [ghReleaseTagUrl "u" "r" "v1", "U"] :=
  first_match_downloaded
    (fun u => if u = "U" then ⟨500, [9, 9]⟩ else ⟨200, [1]⟩)
    (fun b => if b = [1] then
      some (.obj [("assets", .arr
        [.obj [("name", .str "x.zip")],
         .obj [("name", .str "y.tar.xz"),
           ("browser_download_url", .str "U")],
         .obj [("name", .str "z.tar.xz"),
           ("browser_download_url", .str "W")]])])
      else none)
    "/tmp/t0" ⟨[], []⟩ "u" "r" "v1" ".tar.xz" none
    (.obj [("assets", .arr
      [.obj [("name", .str "x.zip")],
       .obj [("name", .str "y.tar.xz"), ("browser_download_url", .str "U")],
       .obj [("name", .str "z.tar.xz"),
         ("browser_download_url", .str "W")]])])
    [.obj [("name", .str "x.zip")]]
    [.obj [("name", .str "z.tar.xz"), ("browser_download_url", .str "W")]]
    (.obj [("name", .str "y.tar.xz"), ("browser_download_url", .str "U")])
    "y.tar.xz" "U" rfl rfl rfl
    (by
      intro b hb
      rcases List.mem_cons.mp hb with rfl | hb2
      · exact ⟨"x.zip", rfl, by decide⟩
      · cases hb2)
    rfl (by decide) rfl

/-- Witness for C3: the asset response has status 500, yet its body is
written to the explicit destination and that path is returned. -/
theorem download_body_written_unconditionally_witness :
    (gh_download_release_asset
        (fun u => if u = "U" then ⟨500, [9, 9]⟩ else ⟨200, [1]⟩)
        (fun b => if b = [1] then
          some (.obj [("assets", .arr
            [.obj [("name", .str "y.tar.xz"),
              ("browser_download_url", .str "U")]])])
          else none)
        "/tmp/t0" ⟨[], []⟩ "u" "r" "v1" ".tar.xz"
        (some "/tmp/out.bin")).2 = .ok "/tmp/out.bin" ∧
    (gh_download_release_asset
        (fun u => if u = "U" then ⟨500, [9, 9]⟩ else ⟨200, [1]⟩)
        (fun b => if b = [1] then
          some (.obj [("assets", .arr
            [.obj [("name", .str "y.tar.xz"),
              ("browser_download_url", .str "U")]])])
          else none)
        "/tmp/t0" ⟨[], []⟩ "u" "r" "v1" ".tar.xz"
        (some "/tmp/out.bin")).1.fs = [("/tmp/out.bin", [9, 9])] :=
  download_body_written_unconditionally
    (fun u => if u = "U" then ⟨500, [9, 9]⟩ else ⟨200, [1]⟩)
    (fun b => if b = [1] then
      some (.obj [("assets", .arr
        [.obj [("name", .str "y.tar.xz"),
          ("browser_download_url", .str "U")]])])
      else none)
    "/tmp/t0" ⟨[], []⟩ "u" "r" "v1" ".tar.xz" (some "/tmp/out.bin")
    (.obj [("assets", .arr
      [.obj [("name", .str "y.tar.xz"),
        ("browser_download_url", .str "U")]])])
    [.obj [("name", .str "y.tar.xz"), ("browser_download_url", .str "U")]]
    "U" rfl rfl rfl rfl (by decide)

/-- Witness for C4: an explicit destination receives the bytes and is the
returned path; the no-destination clause holds vacuously here and is
exercised by the C9 temporary-file scenario. -/
theorem download_destination_semantics_witness :
    (some "/tmp/out.bin" = some "/tmp/out.bin" →
      ("/tmp/out.bin").data.isEmpty = false →
      (gh_download_release_asset
          (fun u => if u = "U" then ⟨500, [9, 9]⟩ else ⟨200, [1]⟩)
          (fun b => if b = [1] then
            some (.obj [("assets", .arr
              [.obj [("name", .str "y.tar.xz"),
                ("browser_download_url", .str "U")]])])
            else none)
          "/tmp/t0" ⟨[], []⟩ "u" "r" "v1" ".tar.xz"
          (some "/tmp/out.bin")).2 = .ok "/tmp/out.bin" ∧
      (gh_download_release_asset
          (fun u => if u = "U" then ⟨500, [9, 9]⟩ else ⟨200, [1]⟩)
          (fun b => if b = [1] then
            some (.obj [("assets", .arr
              [.obj [("name", .str "y.tar.xz"),
                ("browser_download_url", .str "U")]])])
            else none)
          "/tmp/t0" ⟨[], []⟩ "u" "r" "v1" ".tar.xz"
          (some "/tmp/out.bin")).1.fs =
        [("/tmp/out.bin", [9, 9])]) ∧
    (some "/tmp/out.bin" = none →
      (gh_download_release_asset
          (fun u => if u = "U" then ⟨500, [9, 9]⟩ else ⟨200, [1]⟩)
          (fun b => if b = [1] then
            some (.obj [("assets", .arr
              [.obj [("name", .str "y.tar.xz"),
                ("browser_download_url", .str "U")]])])
            else none)
          "/tmp/t0" ⟨[], []⟩ "u" "r" "v1" ".tar.xz"
          (some "/tmp/out.bin")).2 = .ok ("/tmp/t0" ++ ".tar.xz") ∧
      (gh_download_release_asset
          (fun u => if u = "U" then ⟨500, [9, 9]⟩ else ⟨200, [1]⟩)
          (fun b => if b = [1] then
            some (.obj [("assets", .arr
              [.obj [("name", .str "y.tar.xz"),
                ("browser_download_url", .str "U")]])])
            else none)
          "/tmp/t0" ⟨[], []⟩ "u" "r" "v1" ".tar.xz"
          (some "/tmp/out.bin")).1.fs =
        [("/tmp/t0" ++ ".tar.xz", [9, 9])] ∧
      pyEndswith ("/tmp/t0" ++ ".tar.xz") ".tar.xz" = true) :=
  download_destination_semantics
    (fun u => if u = "U" then ⟨500, [9, 9]⟩ else ⟨200, [1]⟩)
    (fun b => if b = [1] then
      some (.obj [("assets", .arr
        [.obj [("name", .str "y.tar.xz"),
          ("browser_download_url", .str "U")]])])
      else none)
    "/tmp/t0" ⟨[], []⟩ "u" "r" "v1" ".tar.xz" (some "/tmp/out.bin")
    "/tmp/out.bin"
    (.obj [("assets", .arr
      [.obj [("name", .str "y.tar.xz"),
        ("browser_download_url", .str "U")]])])
    [.obj [("name", .str "y.tar.xz"), ("browser_download_url", .str "U")]]
    "U" rfl rfl rfl rfl

/-- Witness for C9: destination `""` sends the bytes to the generated
`/tmp/t0.tar.xz`, leaves the path `""` absent, and returns the generated
path. -/
theorem empty_destination_uses_tempfile_witness :
    (gh_download_release_asset
        (fun u => if u = "U" then ⟨500, [9, 9]⟩ else ⟨200, [1]⟩)
        (fun b => if b = [1] then
          some (.obj [("assets", .arr
            [.obj [("name", .str "y.tar.xz"),
              ("browser_download_url", .str "U")]])])
          else none)
        "/tmp/t0" ⟨[], []⟩ "u" "r" "v1" ".tar.xz" (some "")).2 =
      .ok ("/tmp/t0" ++ ".tar.xz") ∧
    (gh_download_release_asset
        (fun u => if u = "U" then ⟨500, [9, 9]⟩ else ⟨200, [1]⟩)
        (fun b => if b = [1] then
          some (.obj [("assets", .arr
            [.obj [("name", .str "y.tar.xz"),
              ("browser_download_url", .str "U")]])])
          else none)
        "/tmp/t0" ⟨[], []⟩ "u" "r" "v1" ".tar.xz" (some "")).1.fs =
      [("/tmp/t0" ++ ".tar.xz", [9, 9])] ∧
    (gh_download_release_asset
        (fun u => if u = "U" then ⟨500, [9, 9]⟩ else ⟨200, [1]⟩)
        (fun b => if b = [1] then
          some (.obj [("assets", .arr
            [.obj [("name", .str "y.tar.xz"),
              ("browser_download_url", .str "U")]])])
          else none)
        "/tmp/t0" ⟨[], []⟩ "u" "r" "v1" ".tar.xz" (some "")).1.fs.lookup
        "" = List.lookup "" ([] : List (String × Bytes)) :=
  empty_destination_uses_tempfile
    (fun u => if u = "U" then ⟨500, [9, 9]⟩ else ⟨200, [1]⟩)
    (fun b => if b = [1] then
      some (.obj [("assets", .arr
        [.obj [("name", .str "y.tar.xz"),
          ("browser_download_url", .str "U")]])])
      else none)
    "/tmp/t0" ⟨[], []⟩ "u" "r" "v1" ".tar.xz"
    (.obj [("assets", .arr
      [.obj [("name", .str "y.tar.xz"),
        ("browser_download_url", .str "U")]])])
    [.obj [("name", .str "y.tar.xz"), ("browser_download_url", .str "U")]]
    "U" rfl rfl rfl rfl (by decide)
